import Mathlib

/-!
Verification of the DateSpark profile-analysis response pipeline.

Strings from the JavaScript source are modelled as `List Char`. Fallible
operations (`JSON.parse`, regex matching) are modelled as `Option`-returning
functions; a JavaScript exception caught by an HTTP route handler is
modelled as the `error` branch of an `Except`. External collaborators
(the OpenAI completion service, Firebase auth token verification, the
Firestore document store) are passed in as explicit parameters: an oracle
for model replies, a validity predicate for tokens, and an `Except` value
for the document-store write outcome.
-/

/- ===== Generic character / list utilities ===== -/

/-- Character test matching the whitespace class used by JSON and by the
JavaScript regex class backslash-s in the source's parsing code (ASCII
subset plus no-break space; the source never feeds exotic Unicode spaces). -/
def isJsSpace (c : Char) : Bool :=
  c = ' ' || c = '\t' || c = '\n' || c = '\r' || c = '\x0b' || c = '\x0c' || c = '\xa0'

/-- Whitespace accepted between JSON tokens by `JSON.parse`. -/
def isJsonWs (c : Char) : Bool :=
  c = ' ' || c = '\t' || c = '\n' || c = '\r'

/-- Drop leading JSON whitespace. -/
def skipWs (s : List Char) : List Char := s.dropWhile isJsonWs

/-- Decimal digit test (the regex class backslash-d), on the character
code. -/
def isDigitC (c : Char) : Bool :=
  let n := c.toNat
  48 ≤ n && n ≤ 57

/-- Numeric value of a decimal digit character. -/
def digitVal (c : Char) : Nat := c.toNat - '0'.toNat

/-- Split a maximal run of leading decimal digits off a character list. -/
def takeDigits : List Char → (List Char × List Char)
  | [] => ([], [])
  | c :: rest =>
    if isDigitC c then
      let (ds, r) := takeDigits rest
      (c :: ds, r)
    else ([], c :: rest)

/-- Value of a digit string read in base 10. -/
def digitsToNat (ds : List Char) : Nat :=
  ds.foldl (fun acc c => acc * 10 + digitVal c) 0

/-- Test whether `s` begins with `pat` (JavaScript `String.prototype.startsWith`). -/
def startsWithL : List Char → List Char → Bool
  | _, [] => true
  | [], _ :: _ => false
  | c :: cs, p :: ps => c = p && startsWithL cs ps

/-- Index of the leftmost occurrence of the segment `pat` inside `hay`
(JavaScript `String.prototype.indexOf` / leftmost regex literal match). -/
def findSeg? (pat : List Char) : List Char → Option Nat
  | [] => if startsWithL [] pat then some 0 else none
  | c :: t => if startsWithL (c :: t) pat then some 0 else (findSeg? pat t).map (· + 1)

/-- Substring containment test (JavaScript `String.prototype.includes`). -/
def containsSeg (hay pat : List Char) : Bool := (findSeg? pat hay).isSome

/-- Index of the first occurrence of character `c`. -/
def firstIdxC (c : Char) : List Char → Option Nat
  | [] => none
  | d :: t => if d = c then some 0 else (firstIdxC c t).map (· + 1)

/-- Index of the last occurrence of character `c`. -/
def lastIdxC (c : Char) (s : List Char) : Option Nat :=
  (firstIdxC c s.reverse).map (fun k => s.length - 1 - k)

/-- Lowercasing a string character by character (JavaScript `toLowerCase`;
the keywords matched in the source are ASCII). -/
def toLowerL (s : List Char) : List Char := s.map Char.toLower

/-- JavaScript `String.prototype.trim`: strip whitespace from both ends. -/
def jsTrim (s : List Char) : List Char :=
  ((s.dropWhile isJsSpace).reverse.dropWhile isJsSpace).reverse

/-- Split on every line feed (JavaScript `split('\n')`). -/
def splitLinesAux : List Char → List Char → List (List Char)
  | cur, [] => [cur.reverse]
  | cur, '\n' :: rest => cur.reverse :: splitLinesAux [] rest
  | cur, c :: rest => splitLinesAux (c :: cur) rest

/-- Split a string into its lines at line feeds. -/
def splitLines (s : List Char) : List (List Char) := splitLinesAux [] s

/-- Fueled worker for splitting on a literal separator (JavaScript
`String.prototype.split` with a nonempty string separator). -/
def splitOnLitAux : Nat → List Char → List Char → List Char → List (List Char)
  | 0, _, cur, s => [cur.reverse ++ s]
  | fuel + 1, sep, cur, s =>
    if startsWithL s sep && !sep.isEmpty then
      cur.reverse :: splitOnLitAux fuel sep [] (s.drop sep.length)
    else
      match s with
      | [] => [cur.reverse]
      | c :: t => splitOnLitAux fuel sep (c :: cur) t

/-- Split `s` at every non-overlapping leftmost occurrence of `sep`. -/
def splitOnLit (sep s : List Char) : List (List Char) :=
  splitOnLitAux (s.length + 1) sep [] s

/- ===== JSON values and a model of JavaScript JSON.parse ===== -/

/-- Structured values recovered from a model reply. Numbers are kept as
exact decimals, `num m e` denoting m times 10 to the power e, so that a
literal such as 7.5 is represented exactly (`num 75 (-1)`); the claims
under check only ever compare values parsed from concrete literals, so
this is a faithful abstraction of JavaScript doubles here. Objects are
ordered field lists as delivered by the parser. -/
inductive Json where
  | null
  | bool (b : Bool)
  | num (mantissa : Int) (exp10 : Int)
  | str (s : List Char)
  | arr (elems : List Json)
  | obj (fields : List (List Char × Json))

/-- Numeric value of a hexadecimal digit, if any, computed on the
character code (48-57 are the digits, 97-102 and 65-70 the two letter
ranges). -/
def hexVal (c : Char) : Option Nat :=
  let n := c.toNat
  if 48 ≤ n && n ≤ 57 then some (n - 48)
  else if 97 ≤ n && n ≤ 102 then some (n - 87)
  else if 65 ≤ n && n ≤ 70 then some (n - 55)
  else none

/-- Decoded character of a simple (non-hex) escape sequence of the JSON
grammar, if the escape is legal. -/
def escDecode (e : Char) : Option Char :=
  if e = '"' then some '"'
  else if e = '\\' then some '\\'
  else if e = '/' then some '/'
  else if e = 'b' then some '\x08'
  else if e = 'f' then some '\x0c'
  else if e = 'n' then some '\n'
  else if e = 'r' then some '\r'
  else if e = 't' then some '\t'
  else none

/-- Prepend a decoded character to the string part of a string-body parse
outcome. -/
def withChar (c : Char) (o : Option (List Char × List Char)) :
    Option (List Char × List Char) :=
  o.map (fun pr => (c :: pr.1, pr.2))

/-- Body of a JSON string literal, after the opening quote: returns the
decoded characters and the input following the closing quote. Escape
sequences follow the JSON grammar; unescaped control characters are
rejected exactly as `JSON.parse` rejects them. -/
def parseStringBody : List Char → Option (List Char × List Char)
  | [] => none
  | '"' :: rest => some ([], rest)
  | '\\' :: 'u' :: rest =>
    match rest with
    | a :: b :: c :: d :: rest' =>
      match hexVal a, hexVal b, hexVal c, hexVal d with
      | some ha, some hb, some hc, some hd =>
        withChar (Char.ofNat (((ha * 16 + hb) * 16 + hc) * 16 + hd))
          (parseStringBody rest')
      | _, _, _, _ => none
    | _ => none
  | '\\' :: e :: rest =>
    match escDecode e with
    | some c => withChar c (parseStringBody rest)
    | none => none
  | c :: rest =>
    if c.toNat < 32 then none
    else withChar c (parseStringBody rest)

/-- Leading JSON number literal: optional minus, integer part with no
leading zeros, optional fraction, optional exponent — the grammar
enforced by `JSON.parse`. -/
def parseNum (s : List Char) : Option (Json × List Char) :=
  let signAndRest : Int × List Char :=
    match s with
    | '-' :: r => (-1, r)
    | _ => (1, s)
  let (sign, s1) := signAndRest
  let (ints, s2) := takeDigits s1
  match ints with
  | [] => none
  | i0 :: irest =>
    if i0 = '0' && !irest.isEmpty then none
    else
      let fracAndRest : List Char × List Char :=
        match s2 with
        | '.' :: r2 => takeDigits r2
        | _ => ([], s2)
      let (fracs, s3) := fracAndRest
      if s2.head? = some '.' && fracs.isEmpty then none
      else
        let expAndRest : Option Int × List Char :=
          match s3 with
          | 'e' :: r3 | 'E' :: r3 =>
            let esignAndRest : Int × List Char :=
              match r3 with
              | c0 :: r' =>
                if c0 = '-' then (-1, r')
                else if c0 = '+' then (1, r')
                else (1, r3)
              | [] => (1, r3)
            let (esign, r4) := esignAndRest
            let (eds, r5) := takeDigits r4
            if eds.isEmpty then (none, s3)
            else (some (esign * (digitsToNat eds : Int)), r5)
          | _ => (some 0, s3)
        match expAndRest with
        | (none, _) => none
        | (some e, s4) =>
          let mantissa : Int := sign * (digitsToNat (ints ++ fracs) : Int)
          some (.num mantissa (e - fracs.length), s4)

/-- Parsing mode: a single value, the tail of an array, or the tail of an
object. -/
inductive PMode where
  | val
  | elems
  | fields

/-- Intermediate parse result matching the three modes. -/
inductive PRes where
  | v (j : Json)
  | vs (js : List Json)
  | kvs (fs : List (List Char × Json))

/-- Fueled recursive-descent JSON reader. In mode `val` it consumes one
JSON value plus leading whitespace; in mode `elems` the remaining
comma-separated elements of an array up to and including the closing
bracket; in mode `fields` the remaining key-value pairs of an object up
to and including the closing brace. -/
def parseCore : Nat → PMode → List Char → Option (PRes × List Char)
  | 0, _, _ => none
  | fuel + 1, .val, s =>
    match skipWs s with
    | '\x7b' :: r =>
      match skipWs r with
      | '\x7d' :: r2 => some (.v (.obj []), r2)
      | r1 =>
        match parseCore fuel .fields r1 with
        | some (.kvs fs, r2) => some (.v (.obj fs), r2)
        | _ => none
    | '[' :: r =>
      match skipWs r with
      | ']' :: r2 => some (.v (.arr []), r2)
      | r1 =>
        match parseCore fuel .elems r1 with
        | some (.vs js, r2) => some (.v (.arr js), r2)
        | _ => none
    | '"' :: r =>
      match parseStringBody r with
      | some (str, r2) => some (.v (.str str), r2)
      | none => none
    | 't' :: 'r' :: 'u' :: 'e' :: r => some (.v (.bool true), r)
    | 'f' :: 'a' :: 'l' :: 's' :: 'e' :: r => some (.v (.bool false), r)
    | 'n' :: 'u' :: 'l' :: 'l' :: r => some (.v .null, r)
    | s0 =>
      match parseNum s0 with
      | some (j, r) => some (.v j, r)
      | none => none
  | fuel + 1, .elems, s =>
    match parseCore fuel .val s with
    | some (.v j, r) =>
      match skipWs r with
      | ',' :: r2 =>
        match parseCore fuel .elems r2 with
        | some (.vs js, r3) => some (.vs (j :: js), r3)
        | _ => none
      | ']' :: r2 => some (.vs [j], r2)
      | _ => none
    | _ => none
  | fuel + 1, .fields, s =>
    match skipWs s with
    | '"' :: r =>
      match parseStringBody r with
      | some (key, r1) =>
        match skipWs r1 with
        | ':' :: r2 =>
          match parseCore fuel .val r2 with
          | some (.v j, r3) =>
            match skipWs r3 with
            | ',' :: r4 =>
              match parseCore fuel .fields r4 with
              | some (.kvs fs, r5) => some (.kvs ((key, j) :: fs), r5)
              | _ => none
            | '\x7d' :: r4 => some (.kvs [(key, j)], r4)
            | _ => none
          | _ => none
        | _ => none
      | none => none
    | _ => none

/-- Model of JavaScript `JSON.parse` on the source's reply texts: `some`
on a complete well-formed JSON document (surrounding whitespace allowed,
trailing garbage rejected), `none` where `JSON.parse` would throw. The
fuel is generous: every recursive step of `parseCore` follows
consumption of at least one input character, with at most two steps per
character. -/
def jsonParse (s : List Char) : Option Json :=
  match parseCore (2 * s.length + 4) .val s with
  | some (.v j, rest) => if skipWs rest = [] then some j else none
  | _ => none

/-- Field lookup in an ordered association list of parsed object fields. -/
def lookupAssoc : List (List Char × Json) → List Char → Option Json
  | [], _ => none
  | (k', v) :: rest, k => if k' = k then some v else lookupAssoc rest k

/-- Field lookup on a parsed JSON value (none on non-objects). -/
def lookupField (j : Json) (k : List Char) : Option Json :=
  match j with
  | .obj fs => lookupAssoc fs k
  | _ => none

/- ===== Result Extractor (src/datespark-backend/routes/ai.cjs, lines 181-202) ===== -/

/-- Literal opening of the fenced-block regex in ai.cjs line 187: three
backticks, the word json, then a line feed. -/
def fenceOpenLit : List Char := "```json\n".data

/-- Literal closing of the fenced-block regex: a line feed then three
backticks. -/
def fenceCloseLit : List Char := "\n```".data

/-- Model of `responseText.match(<backtick-fenced json block with lazy
capture>)` from ai.cjs line 187: the leftmost fence opening, the earliest
following fence closing, returning (capture group, full match). -/
def fencedMatch (s : List Char) : Option (List Char × List Char) :=
  match findSeg? fenceOpenLit s with
  | none => none
  | some i =>
    let after := s.drop (i + fenceOpenLit.length)
    match findSeg? fenceCloseLit after with
    | none => none
    | some j => some (after.take j, fenceOpenLit ++ after.take j ++ fenceCloseLit)

/-- Model of `responseText.match(/{[\s\S]*}/)` from ai.cjs line 188: the
greedy regex matches from the first opening brace to the last closing
brace, provided the latter comes after the former. -/
def greedyBraceMatch (s : List Char) : Option (List Char) :=
  match firstIdxC '\x7b' s, lastIdxC '\x7d' s with
  | some i, some j => if i < j then some ((s.drop i).take (j - i + 1)) else none
  | _, _ => none

/-- Outcome of the analyze-profile response parsing in ai.cjs lines
181-202. `parsed` is a successful structured parse; `noJsonFallback` is
the object built when neither regex matches (carrying `error` and
`rawResponse` fields, line 194); `parseErrorFallback` is the object built
in the catch branch when `JSON.parse` throws (carrying `error` and
`message` fields, lines 198-201). The two fallback constructors model the
internal error tags that let a caller distinguish a fully parsed result
from a best-effort one. -/
inductive AnalysisResult where
  | parsed (v : Json)
  | noJsonFallback (rawResponse : List Char)
  | parseErrorFallback (message : List Char)

/-- The Result Extractor of ai.cjs lines 181-202: try the fenced-block
regex, then the greedy brace regex (`||`); on a match, `JSON.parse` the
captured text (`jsonMatch[1] || jsonMatch[0]`, where an empty capture is
falsy); a parse failure lands in the catch branch; no match at all yields
the raw-response fallback. -/
def extractAnalysis (text : List Char) : AnalysisResult :=
  match fencedMatch text with
  | some (cap, full) =>
    let jstr := if cap = [] then full else cap
    match jsonParse jstr with
    | some v => .parsed v
    | none => .parseErrorFallback text
  | none =>
    match greedyBraceMatch text with
    | some m =>
      match jsonParse m with
      | some v => .parsed v
      | none => .parseErrorFallback text
    | none => .noJsonFallback text

/-- Model of the analyze-profile reply handling in the routes variant
src/unnamed/part_002 lines 90-126: the raw reply is fed to an unguarded
`JSON.parse`; a throw propagates to the route's catch, which answers
HTTP 500 with the message `Error analyzing profile` instead of any
analysis result. -/
def part002ParseReply (raw : List Char) : Except (List Char) Json :=
  match jsonParse raw with
  | some v => .ok v
  | none => .error "Error analyzing profile".data

/- ===== Per-photo verdict classification (src/unnamed/part_003, lines 266-268) ===== -/

/-- Verdict literal for a good photo. -/
def goodLit : List Char := "Good".data

/-- Verdict literal for an acceptable photo. -/
def okayLit : List Char := "Okay".data

/-- Verdict literal for a photo needing improvement. -/
def niLit : List Char := "Needs Improvement".data

/-- The verdict ternary of part_003 lines 267-268:
`verdict.startsWith("Good") ? "Good" : verdict.startsWith("Okay") ? "Okay"
: "Needs Improvement"`. -/
def classifyVerdict (s : List Char) : List Char :=
  if startsWithL s goodLit then goodLit
  else if startsWithL s okayLit then okayLit
  else niLit

/- ===== Prompt Builder (ai.cjs lines 117-169) ===== -/

/-- Decimal digits of a photo count as interpolated into the prompt
string. -/
def natChars (n : Nat) : List Char := (Nat.repr n).data

/-- Fixed instruction tail of the analyze-profile prompt, ai.cjs lines
126-150 (per-photo requests, overall requests, and the JSON response
template). -/
def analysisPromptTail : List Char :=
  ("\n\nFor each photo, provide:\n1. A brief description of what\x27s in the photo\n2. A verdict on whether it\x27s a good dating profile photo\n3. A specific suggestion to improve it\n\nThen, provide:\n1. An overall first impression score (1-10)\n2. Whether you would \"swipe right\" or \"swipe left\" on this profile and why\n3. Key strengths of the profile\n4. Specific improvement suggestions\n\nFormat the response as a JSON object with these fields:\n\x7b\n  \"photoAnalysis\": [\n    \x7b \"description\": \"\", \"verdict\": \"\", \"suggestion\": \"\" \x7d,\n    ...\n  ],\n  \"overallScore\": 7.5,\n  \"firstImpression\": \x7b\n    \"would_swipe\": \"right | left\",\n    \"reason\": \"\"\n  \x7d,\n  \"strengths\": [\"\", \"\", \"\"],\n  \"improvements\": [\"\", \"\", \"\"]\n\x7d").data

/-- Clause appended for a present bio field, ai.cjs line 122 (absent
fields are silently omitted). -/
def bioClause (bio? : Option (List Char)) : List Char :=
  match bio? with
  | some b => " and the following bio: \"".data ++ b ++ "\"".data
  | none => []

/-- Clause appended for a present goals field, ai.cjs line 123 (absent
fields are silently omitted). -/
def goalsClause (goals? : Option (List Char)) : List Char :=
  match goals? with
  | some g => ". The user\x27s dating goals are: \"".data ++ g ++ "\"".data
  | none => []

/-- Clause appended for a present preferences field, ai.cjs line 124
(absent fields are silently omitted). -/
def prefsClause (preferences? : Option (List Char)) : List Char :=
  match preferences? with
  | some p => ". Their preferences are: \"".data ++ p ++ "\"".data
  | none => []

/-- The analyze-profile prompt of ai.cjs lines 120-150: the photo count is
interpolated into the opening sentence, and each optional field present
appends one clause. String concatenation is associative, so the chain of
JavaScript append-assignments is written right-associated. -/
def buildAnalysisPrompt (photos : List (List Char))
    (bio? goals? preferences? : Option (List Char)) : List Char :=
  "Analyze these ".data ++
    (natChars photos.length ++
      (" dating profile photos".data ++
        (bioClause bio? ++ (goalsClause goals? ++ (prefsClause preferences? ++ analysisPromptTail)))))

/-- One element of the user message content array of ai.cjs lines 163-168:
either the text part or an image reference. -/
inductive ContentPart where
  | text (s : List Char)
  | imageUrl (u : List Char)

/-- The user message content of ai.cjs lines 163-168: the prompt text
followed by one image reference per photo, in caller order
(`photos.map(photo => ({ type: "image_url", ... }))`). -/
def aiMessages (photos : List (List Char))
    (bio? goals? preferences? : Option (List Char)) : List ContentPart :=
  .text (buildAnalysisPrompt photos bio? goals? preferences?) :: photos.map .imageUrl

/-- Image references carried by a content array, in order. -/
def imageUrlsOf (parts : List ContentPart) : List (List Char) :=
  parts.filterMap fun p =>
    match p with
    | .imageUrl u => some u
    | .text _ => none

/- ===== The analyze-profile route of ai.cjs (lines 47-61 and 105-223) ===== -/

/-- Inbound request body and authorization header of the ai.cjs
analyze-profile route. `photos?` is `none` when the body carries no
`photos` array (the `!photos || !Array.isArray(photos)` test). -/
structure AiReq where
  authHeader : Option (List Char)
  photos? : Option (List (List Char))
  bio? : Option (List Char)
  goals? : Option (List Char)
  preferences? : Option (List Char)

/-- Bearer-token extraction of the verifyAuth middleware, ai.cjs line 49:
`req.headers.authorization?.split('Bearer ')[1]`, with the subsequent
`if (!idToken)` treating both a missing part and an empty part as no
token. -/
def extractBearer? (h : Option (List Char)) : Option (List Char) :=
  match h with
  | none => none
  | some s =>
    match (splitOnLit "Bearer ".data s).get? 1 with
    | some t => if t = [] then none else some t
    | none => none

/-- HTTP outcomes of the ai.cjs analyze-profile route: 401 from
verifyAuth, 400 from request validation, 500 from the route's catch, or
200 carrying the new document id and the extraction outcome. -/
inductive AiResponse where
  | unauthorized (msg : List Char)
  | badRequest (msg : List Char)
  | serverError (msg : List Char)
  | success (docId : List Char) (result : AnalysisResult)

/-- Message of the 400 response, ai.cjs line 111. -/
def noPhotosMsg : List Char := "No photos provided for analysis".data

/-- Message of the catch-all 500 response, ai.cjs line 221. -/
def failedAnalyzeMsg : List Char := "Failed to analyze profile".data

/-- The ai.cjs analyze-profile route end to end, lines 47-61 and 105-223.
`tokenValid` stands for the external Firebase `verifyIdToken` collaborator
(`false` meaning it throws); `modelReply` for the outcome of the single
OpenAI completion call; `persist` for the Firestore `add` (returning the
new document id on success, the write being awaited inside the route's
try block). The second component counts external model calls made. -/
def aiAnalyzeProfile (tokenValid : List Char → Bool)
    (modelReply : Except Unit (List Char)) (persist : Except Unit (List Char))
    (req : AiReq) : AiResponse × Nat :=
  match extractBearer? req.authHeader with
  | none => (.unauthorized "No token provided".data, 0)
  | some t =>
    if !tokenValid t then (.unauthorized "Unauthorized".data, 0)
    else
      match req.photos? with
      | none => (.badRequest noPhotosMsg, 0)
      | some photos =>
        if photos.isEmpty then (.badRequest noPhotosMsg, 0)
        else
          match modelReply with
          | .error _ => (.serverError failedAnalyzeMsg, 1)
          | .ok raw =>
            let result := extractAnalysis raw
            match persist with
            | .error _ => (.serverError failedAnalyzeMsg, 1)
            | .ok docId => (.success docId result, 1)

/- ===== Per-photo analysis loop (src/unnamed/part_003, lines 219-333) ===== -/

/-- Fueled worker modelling `response.split(/\d\.\s+/)` from part_003 line
258: split at every single digit followed by a dot and a greedy
whitespace run. -/
def splitNumdotAux : Nat → List Char → List Char → List (List Char)
  | 0, cur, s => [cur.reverse ++ s]
  | fuel + 1, cur, s =>
    match s with
    | d :: '.' :: w :: rest =>
      if isDigitC d && isJsSpace w then
        cur.reverse :: splitNumdotAux fuel [] (rest.dropWhile isJsSpace)
      else splitNumdotAux fuel (d :: cur) ('.' :: w :: rest)
    | c :: rest => splitNumdotAux fuel (c :: cur) rest
    | [] => [cur.reverse]

/-- Split at numbered-section markers, part_003 lines 258 and 314. -/
def splitNumdot (s : List Char) : List (List Char) :=
  splitNumdotAux (s.length + 1) [] s

/-- One entry of the analyses array built by part_003 lines 265-286. -/
structure PhotoAnalysis where
  description : List Char
  verdict : List Char
  suggestion : List Char
deriving DecidableEq

/-- Hard-coded entry pushed when the reply does not split into at least
four sections, part_003 lines 273-277. -/
def photoParseFallback : PhotoAnalysis :=
  { description := "Unable to analyze image properly".data
    verdict := niLit
    suggestion := "Please upload a clearer photo with better lighting".data }

/-- Hard-coded entry pushed when the OpenAI call for a photo throws,
part_003 lines 281-285. -/
def photoErrorFallback : PhotoAnalysis :=
  { description := "Error analyzing this image".data
    verdict := niLit
    suggestion := "There was an error analyzing this image. Please try a different photo.".data }

/-- Body of one iteration of the per-photo loop, part_003 lines 237-286:
on a reply, split into numbered sections; with at least four sections
(index 0 being the text before the first marker) build the entry from
sections 1-3 with the verdict ternary; otherwise push the parse fallback;
on a thrown OpenAI call push the error fallback. -/
def analyzeOnePhoto (reply : Except Unit (List Char)) : PhotoAnalysis :=
  match reply with
  | .error _ => photoErrorFallback
  | .ok resp =>
    let sections := splitNumdot resp
    if 4 ≤ sections.length then
      { description := jsTrim (sections.getD 1 [])
        verdict := classifyVerdict (jsTrim (sections.getD 2 []))
        suggestion := jsTrim (sections.getD 3 []) }
    else photoParseFallback

/-- The sequential per-photo loop of part_003 lines 222-287, indexed by
call order: `oracle i` is the outcome of the OpenAI call for photo `i`. -/
def analyzePhotosLoop (oracle : Nat → Except Unit (List Char)) :
    Nat → List (List Char) → List PhotoAnalysis
  | _, [] => []
  | i, _ :: rest => analyzeOnePhoto (oracle i) :: analyzePhotosLoop oracle (i + 1) rest

/-- The analyses array produced for a list of photo URLs, in submission
order. -/
def analyzePhotos (oracle : Nat → Except Unit (List Char))
    (urls : List (List Char)) : List PhotoAnalysis :=
  analyzePhotosLoop oracle 0 urls

/- ===== The /api/analyze-profile route of part_003 (lines 178-339) ===== -/

/-- Inbound request of the part_003 /api/analyze-profile route: an
authorization header (which the route never consults — its middleware
chain has no token verification), directly uploaded files, and body
image URLs. -/
structure ServerReq where
  authHeader : Option (List Char)
  files : List (List Char)
  imageUrls : List (List Char)

/-- Outcomes of the part_003 /api/analyze-profile route. -/
inductive ServerResponse where
  | configError (msg : List Char)
  | badRequest (msg : List Char)
  | ok (analyses : List PhotoAnalysis) (overallVerdict overallSuggestion : List Char)

/-- Default overall verdict, part_003 line 290. -/
def defaultOverallVerdict : List Char := "Review your photo selection".data

/-- Default overall suggestion, part_003 line 291. -/
def defaultOverallSuggestion : List Char := "Consider adding more diverse photos".data

/-- The part_003 /api/analyze-profile route, lines 178-339. Its middleware
chain (line 178-185) is upload handling and field validation only — no
authentication middleware — so the handler runs regardless of
`authHeader`. `apiKeyOk` models the server-configuration check of lines
192-195; `oracle i` the per-photo OpenAI call outcomes; `overallReply`
the aggregate-verdict call of lines 303-311 (made whenever at least one
analysis entry exists). The second component counts external model calls
made (attempts, whether or not they succeed). -/
def serverAnalyzeProfile (apiKeyOk : Bool)
    (oracle : Nat → Except Unit (List Char)) (overallReply : Except Unit (List Char))
    (req : ServerReq) : ServerResponse × Nat :=
  if !apiKeyOk then
    (.configError "Server configuration error: Missing or invalid API key".data, 0)
  else if req.files.isEmpty && req.imageUrls.isEmpty then
    (.badRequest "No photos uploaded".data, 0)
  else
    let photoUrls := if !req.files.isEmpty then req.files else req.imageUrls
    let analyses := analyzePhotos oracle photoUrls
    if 0 < analyses.length then
      match overallReply with
      | .error _ =>
        (.ok analyses defaultOverallVerdict defaultOverallSuggestion, photoUrls.length + 1)
      | .ok resp =>
        let secs := splitNumdot resp
        let v := if 1 < secs.length then jsTrim (secs.getD 1 []) else defaultOverallVerdict
        let sg := if 2 < secs.length then jsTrim (secs.getD 2 []) else defaultOverallSuggestion
        (.ok analyses v sg, photoUrls.length + 1)
    else (.ok analyses defaultOverallVerdict defaultOverallSuggestion, photoUrls.length)

/- ===== Conversation starters heuristics (part_003, lines 526-584) ===== -/

/-- Fueled worker modelling `response.split(/\n\n+/)` from part_003 line
538: runs of two or more line feeds separate sections; a pending run of
fewer than two line feeds stays inside the current section. -/
def splitSecsAux : List Char → Nat → List Char → List (List Char)
  | cur, nl, [] =>
    if 2 ≤ nl then [cur.reverse, []] else [cur.reverse ++ List.replicate nl '\n']
  | cur, nl, '\n' :: rest => splitSecsAux cur (nl + 1) rest
  | cur, nl, c :: rest =>
    if 2 ≤ nl then cur.reverse :: splitSecsAux [c] 0 rest
    else splitSecsAux (c :: (List.replicate nl '\n' ++ cur)) 0 rest

/-- Split into blank-line-separated sections, part_003 line 538. -/
def splitSecs (s : List Char) : List (List Char) := splitSecsAux [] 0 s

/-- Model of the test-and-capture of `/^\d+\.\s+(.+)$/` (part_003 line
545) on a single line: a maximal nonempty digit run, a dot, a greedy
whitespace run donating one character back when nothing is left for the
final group. Returns the capture group. -/
def matchNumbered (line : List Char) : Option (List Char) :=
  let (ds, r1) := takeDigits line
  if ds.isEmpty then none
  else
    match r1 with
    | '.' :: tail =>
      match tail with
      | [] => none
      | w :: _ =>
        if !isJsSpace w then none
        else
          let after := tail.dropWhile isJsSpace
          if !after.isEmpty then some after
          else if 2 ≤ tail.length then some (tail.drop (tail.length - 1))
          else none
    | _ => none

/-- The numbered lines of a section: filter by the line regex, take the
capture, trim — part_003 lines 549-556. -/
def extractLines (sec : List Char) : List (List Char) :=
  (splitLines sec).filterMap fun l => (matchNumbered l).map jsTrim

/-- Section-classification loop of part_003 lines 547-558: a section
whose lowercased text contains "message" but not "follow-up" overwrites
the messages; one containing "follow-up" overwrites the follow-ups; one
containing "tip" overwrites the tips. -/
def classifySections :
    List (List Char) →
    (List (List Char) × List (List Char) × List (List Char)) →
    (List (List Char) × List (List Char) × List (List Char))
  | [], acc => acc
  | sec :: rest, (ms, fs, ts) =>
    let lower := toLowerL sec
    if containsSeg lower "message".data && !containsSeg lower "follow-up".data then
      classifySections rest (extractLines sec, fs, ts)
    else if containsSeg lower "follow-up".data then
      classifySections rest (ms, extractLines sec, ts)
    else if containsSeg lower "tip".data then
      classifySections rest (ms, fs, extractLines sec)
    else classifySections rest (ms, fs, ts)

/-- Match of `/\d+\.\s+([^\n]+)/` at the current position (not anchored):
digit run, dot, greedy whitespace run, then at least one non-newline
character. Returns the full matched text and the rest of the input.
The whitespace run donates its final character when it would otherwise
swallow everything, provided that character is not a line feed. -/
def matchNumLead (s : List Char) : Option (List Char × List Char) :=
  let (ds, r1) := takeDigits s
  if ds.isEmpty then none
  else
    match r1 with
    | '.' :: tail =>
      match tail with
      | [] => none
      | w :: _ =>
        if !isJsSpace w then none
        else
          let wsRun := tail.takeWhile isJsSpace
          let after := tail.dropWhile isJsSpace
          if !after.isEmpty then
            let content := after.takeWhile (· ≠ '\n')
            some (ds ++ '.' :: (wsRun ++ content), after.dropWhile (· ≠ '\n'))
          else if 2 ≤ wsRun.length && wsRun.getLast? ≠ some '\n' then
            some (ds ++ '.' :: wsRun, [])
          else none
    | _ => none

/-- Fueled global scan modelling `response.match(/\d+\.\s+([^\n]+)/g)`
(part_003 line 562): collect all non-overlapping leftmost matches. -/
def scanNumberedAux : Nat → List Char → List (List Char)
  | 0, _ => []
  | fuel + 1, s =>
    match matchNumLead s with
    | some (m, r) => m :: scanNumberedAux fuel r
    | none =>
      match s with
      | [] => []
      | _ :: rest => scanNumberedAux fuel rest

/-- All numbered items found anywhere in the reply, part_003 line 562. -/
def scanNumbered (s : List Char) : List (List Char) :=
  scanNumberedAux (s.length + 1) s

/-- Model of `item.replace(/^\d+\.\s+/, '')` (part_003 lines 564-568):
strip a leading digit run, dot and whitespace run when present. -/
def stripNumPrefixL (s : List Char) : List Char :=
  let (ds, r1) := takeDigits s
  if ds.isEmpty then s
  else
    match r1 with
    | '.' :: tail =>
      match tail with
      | [] => s
      | w :: _ => if isJsSpace w then tail.dropWhile isJsSpace else s
    | _ => s

/-- Heuristic item recovery of the conversation-starters route, part_003
lines 537-572: section classification first, then — only when the
messages list came out empty — the global numbered-item scan, slicing
items 0-2 into messages and, when present, 3-5 into follow-ups and 6-8
into tips. -/
def heuristicItems (resp : List Char) :
    List (List Char) × List (List Char) × List (List Char) :=
  let acc := classifySections (splitSecs resp) ([], [], [])
  let ms := acc.1
  let fs := acc.2.1
  let ts := acc.2.2
  if ms.isEmpty then
    let items := scanNumbered resp
    if 3 ≤ items.length then
      let strip := fun it => jsTrim (stripNumPrefixL it)
      ((items.take 3).map strip,
       if 6 ≤ items.length then ((items.drop 3).take 3).map strip else fs,
       if 9 ≤ items.length then ((items.drop 6).take 3).map strip else ts)
    else (ms, fs, ts)
  else (ms, fs, ts)

/-- Placeholder opening message, part_003 line 575. -/
def phMessage : List Char :=
  "Hi there! I noticed you enjoy [interest]. What\x27s your favorite part about it?".data

/-- Placeholder follow-up, part_003 line 576. -/
def phFollowUp : List Char := "What\x27s been keeping you busy lately?".data

/-- Placeholder tip, part_003 line 577. -/
def phTip : List Char :=
  "Be genuine and reference specific details from their profile".data

/-- The `xs.length > 0 ? xs : [placeholder]` substitution of part_003
lines 575-577. -/
def withFallback (l : List (List Char)) (ph : List Char) : List (List Char) :=
  if 0 < l.length then l else [ph]

/-- The category lists returned by the conversation-starters route,
part_003 lines 574-578: recovered items, or exactly one placeholder per
empty category. -/
def conversationStarters (resp : List Char) :
    List (List Char) × List (List Char) × List (List Char) :=
  (withFallback (heuristicItems resp).1 phMessage,
   withFallback (heuristicItems resp).2.1 phFollowUp,
   withFallback (heuristicItems resp).2.2 phTip)

/- ===== Helper lemmas ===== -/

/-- A string starts with itself followed by anything. -/
theorem startsWithL_append (pat t : List Char) : startsWithL (pat ++ t) pat = true := by
  induction pat with
  | nil => simp [startsWithL]
  | cons p ps ih => simp [startsWithL, ih]

/-- A segment embedded verbatim is found by the leftmost-occurrence search. -/
theorem findSeg?_isSome_append (pat a c : List Char) :
    (findSeg? pat (a ++ (pat ++ c))).isSome = true := by
  induction a with
  | nil =>
    simp only [List.nil_append]
    cases hpc : pat ++ c with
    | nil =>
      obtain ⟨hp, _⟩ := List.append_eq_nil.mp hpc
      subst hp
      simp [findSeg?, startsWithL]
    | cons x t =>
      have hs : startsWithL (x :: t) pat = true := by
        rw [← hpc]; exact startsWithL_append pat c
      simp [findSeg?, hs]
  | cons x a' ih =>
    simp only [List.cons_append, findSeg?]
    by_cases h : startsWithL (x :: (a' ++ (pat ++ c))) pat = true
    · simp [h]
    · simp only [Bool.not_eq_true] at h
      simp [h, ih]

/-- Substring containment holds for a segment embedded verbatim. -/
theorem containsSeg_append_middle (a pat c : List Char) :
    containsSeg (a ++ (pat ++ c)) pat = true :=
  findSeg?_isSome_append pat a c

/-- Without the fence opening anywhere in the text, the fenced-block regex
does not match. -/
theorem fencedMatch_eq_none (s : List Char)
    (h : containsSeg s fenceOpenLit = false) : fencedMatch s = none := by
  unfold containsSeg at h
  have h' : findSeg? fenceOpenLit s = none := by
    cases hf : findSeg? fenceOpenLit s with
    | none => rfl
    | some i => rw [hf] at h; simp at h
  unfold fencedMatch
  rw [h']

/-- First-occurrence search over an occurrence-free fragment shifts by its
length. -/
theorem firstIdxC_append (c : Char) (pre rest : List Char)
    (h : ∀ x ∈ pre, ¬ x = c) :
    firstIdxC c (pre ++ rest) = (firstIdxC c rest).map (· + pre.length) := by
  induction pre with
  | nil =>
    simp only [List.nil_append, List.length_nil]
    cases firstIdxC c rest <;> simp
  | cons x p ih =>
    have hx : ¬ x = c := h x (List.mem_cons_self x p)
    simp only [List.cons_append, firstIdxC, if_neg hx, List.append_eq]
    have hrestmem : ∀ y ∈ p, ¬ y = c := by
      intro y hy
      exact h y (List.mem_cons_of_mem _ hy)
    rw [ih hrestmem]
    cases firstIdxC c rest with
    | none => simp
    | some k => simp; omega

/-- First-occurrence search stops at a leading match. -/
theorem firstIdxC_cons_self (c : Char) (t : List Char) :
    firstIdxC c (c :: t) = some 0 := by
  simp [firstIdxC]

/-- The greedy brace regex of ai.cjs line 188 recovers exactly an embedded
brace-delimited object when the surrounding prose is brace-free: the
first opening brace is the object's first character and the last closing
brace is the object's last character. -/
theorem greedyBraceMatch_embedded (pre mid post : List Char)
    (hpre : ∀ x ∈ pre, ¬ x = '\x7b' ∧ ¬ x = '\x7d')
    (hpost : ∀ x ∈ post, ¬ x = '\x7b' ∧ ¬ x = '\x7d') :
    greedyBraceMatch (pre ++ ('\x7b' :: mid ++ ['\x7d']) ++ post) =
      some ('\x7b' :: mid ++ ['\x7d']) := by
  have h1 : firstIdxC '\x7b' (pre ++ ('\x7b' :: mid ++ ['\x7d']) ++ post) =
      some pre.length := by
    rw [List.append_assoc, firstIdxC_append _ _ _ (fun x hx => (hpre x hx).1)]
    have hshape : ('\x7b' :: mid ++ ['\x7d']) ++ post =
        '\x7b' :: (mid ++ ['\x7d'] ++ post) := by simp
    rw [hshape, firstIdxC_cons_self]
    simp
  have h2 : lastIdxC '\x7d' (pre ++ ('\x7b' :: mid ++ ['\x7d']) ++ post) =
      some (pre.length + mid.length + 1) := by
    unfold lastIdxC
    have hrev : (pre ++ ('\x7b' :: mid ++ ['\x7d']) ++ post).reverse =
        post.reverse ++ ('\x7d' :: (mid.reverse ++ '\x7b' :: pre.reverse)) := by
      simp
    rw [hrev, firstIdxC_append _ _ _
      (fun x hx => (hpost x (List.mem_reverse.mp hx)).2), firstIdxC_cons_self]
    simp only [Option.map_some', Option.some.injEq, List.length_append,
      List.length_reverse, List.length_cons, List.length_nil]
    omega
  unfold greedyBraceMatch
  rw [h1, h2]
  show (if pre.length < pre.length + mid.length + 1 then
          some (List.take (pre.length + mid.length + 1 - pre.length + 1)
            (List.drop pre.length (pre ++ ('\x7b' :: mid ++ ['\x7d']) ++ post)))
        else none) = some ('\x7b' :: mid ++ ['\x7d'])
  rw [if_pos (by omega)]
  have hdrop : (pre ++ ('\x7b' :: mid ++ ['\x7d']) ++ post).drop pre.length =
      ('\x7b' :: mid ++ ['\x7d']) ++ post := by
    rw [List.append_assoc]
    exact List.drop_left pre _
  rw [hdrop]
  have harith : pre.length + mid.length + 1 - pre.length + 1 =
      ('\x7b' :: mid ++ ['\x7d']).length := by
    simp only [List.length_cons, List.length_append, List.length_nil]
    omega
  rw [harith, List.take_left]

/-- Shared extraction lemma: with no fenced block and brace-free prose, the
Result Extractor parses exactly the embedded object. -/
theorem extractAnalysis_embedded (pre mid post : List Char) (v : Json)
    (hpre : ∀ x ∈ pre, ¬ x = '\x7b' ∧ ¬ x = '\x7d')
    (hpost : ∀ x ∈ post, ¬ x = '\x7b' ∧ ¬ x = '\x7d')
    (hnf : containsSeg (pre ++ ('\x7b' :: mid ++ ['\x7d']) ++ post) fenceOpenLit = false)
    (hv : jsonParse ('\x7b' :: mid ++ ['\x7d']) = some v) :
    extractAnalysis (pre ++ ('\x7b' :: mid ++ ['\x7d']) ++ post) = .parsed v := by
  unfold extractAnalysis
  rw [fencedMatch_eq_none _ hnf, greedyBraceMatch_embedded pre mid post hpre hpost]
  show (match jsonParse ('\x7b' :: mid ++ ['\x7d']) with
        | some w => AnalysisResult.parsed w
        | none => AnalysisResult.parseErrorFallback
            (pre ++ ('\x7b' :: mid ++ ['\x7d']) ++ post)) = AnalysisResult.parsed v
  rw [hv]

/-- A verdict starting with the Okay literal cannot start with the Good
literal (they differ at their first character). -/
theorem startsWithL_okay_not_good (s : List Char)
    (h : startsWithL s okayLit = true) : startsWithL s goodLit = false := by
  cases s with
  | nil => exact absurd h (by decide)
  | cons c cs =>
    have ho : okayLit = 'O' :: "kay".data := by decide
    have hg : goodLit = 'G' :: "ood".data := by decide
    rw [ho] at h
    rw [hg]
    simp only [startsWithL, Bool.and_eq_true, decide_eq_true_eq] at h
    obtain ⟨hc, -⟩ := h
    subst hc
    simp [startsWithL]

/- ===== Claim theorems ===== -/

/-- C1 (amended): in the ai.cjs analyze-profile route (lines 181-202), the
Result Extractor is total on raw reply texts: every text yields either a
fully parsed result or one of the two tagged fallbacks, each fallback
carrying the raw reply; the three outcomes are pairwise distinguishable
by the caller. (The part_002 routes variant violates the original claim;
see the counterexample.) -/
theorem spec_c1 :
    (∀ text : List Char,
      (∃ v, extractAnalysis text = .parsed v) ∨
        extractAnalysis text = .noJsonFallback text ∨
        extractAnalysis text = .parseErrorFallback text)
    ∧ (∀ v r, AnalysisResult.parsed v ≠ AnalysisResult.noJsonFallback r)
    ∧ (∀ v r, AnalysisResult.parsed v ≠ AnalysisResult.parseErrorFallback r)
    ∧ (∀ r r', AnalysisResult.noJsonFallback r ≠ AnalysisResult.parseErrorFallback r') := by
  refine ⟨?_, fun v r => by simp, fun v r => by simp, fun r r' => by simp⟩
  intro text
  unfold extractAnalysis
  cases hf : fencedMatch text with
  | some cf =>
    obtain ⟨cap, full⟩ := cf
    cases hj : jsonParse (if cap = [] then full else cap) with
    | some v => exact Or.inl ⟨v, by simp [hj]⟩
    | none => exact Or.inr (Or.inr (by simp [hj]))
  | none =>
    cases hg : greedyBraceMatch text with
    | some m =>
      cases hj : jsonParse m with
      | some v => exact Or.inl ⟨v, by simp [hj]⟩
      | none => exact Or.inr (Or.inr (by simp [hj]))
    | none => exact Or.inr (Or.inl (by simp))

/-- C1 counterexample: the part_002 analyze-profile variant feeds the raw
reply to an unguarded `JSON.parse`; on a malformed (non-JSON) reply the
parse throws and the route answers a 500 error — no best-effort
AnalysisResult and no internal fallback tag is produced, contradicting
the claim that the Result Extractor never fails on malformed output. -/
theorem spec_c1_cex :
    part002ParseReply "I am sorry, I cannot assist with that.".data =
      .error "Error analyzing profile".data := rfl

/-- C2: the verdict classifier of part_003 is total with range exactly
the three verdict literals, first-match-wins on the leading token
(case-sensitive), and idempotent. -/
theorem spec_c2 : ∀ s : List Char,
    (classifyVerdict s = goodLit ∨ classifyVerdict s = okayLit ∨ classifyVerdict s = niLit)
    ∧ classifyVerdict (classifyVerdict s) = classifyVerdict s
    ∧ (startsWithL s goodLit = true → classifyVerdict s = goodLit)
    ∧ (startsWithL s okayLit = true → classifyVerdict s = okayLit)
    ∧ (startsWithL s goodLit = false → startsWithL s okayLit = false →
        classifyVerdict s = niLit) := by
  intro s
  by_cases hg : startsWithL s goodLit = true
  · have hc : classifyVerdict s = goodLit := by simp [classifyVerdict, hg]
    refine ⟨Or.inl hc, by rw [hc]; decide, fun _ => hc, fun ho => ?_, fun hg' _ => ?_⟩
    · have hng := startsWithL_okay_not_good s ho
      rw [hg] at hng
      exact absurd hng (by simp)
    · rw [hg'] at hg
      exact absurd hg (by simp)
  · have hgf : startsWithL s goodLit = false := by simpa using hg
    by_cases ho : startsWithL s okayLit = true
    · have hc : classifyVerdict s = okayLit := by simp [classifyVerdict, hgf, ho]
      refine ⟨Or.inr (Or.inl hc), by rw [hc]; decide, fun hg' => ?_, fun _ => hc,
        fun _ ho' => ?_⟩
      · rw [hg'] at hgf; exact absurd hgf (by simp)
      · rw [ho] at ho'; exact absurd ho' (by simp)
    · have hof : startsWithL s okayLit = false := by simpa using ho
      have hc : classifyVerdict s = niLit := by simp [classifyVerdict, hgf, hof]
      refine ⟨Or.inr (Or.inr hc), by rw [hc]; decide, fun hg' => ?_, fun ho' => ?_,
        fun _ _ => hc⟩
      · rw [hg'] at hgf; exact absurd hgf (by simp)
      · rw [ho'] at hof; exact absurd hof (by simp)

/-- C2 witness: concrete verdict texts hit each class, and classification
is stable on an already-classified verdict. -/
theorem spec_c2_witness :
    classifyVerdict "Good lighting and a real smile".data = goodLit
    ∧ classifyVerdict "Okay but slightly blurry".data = okayLit
    ∧ classifyVerdict "Too dark to see".data = niLit
    ∧ classifyVerdict (classifyVerdict "Too dark to see".data) =
        classifyVerdict "Too dark to see".data :=
  ⟨(spec_c2 _).2.2.1 (by decide), (spec_c2 _).2.2.2.1 (by decide),
   (spec_c2 _).2.2.2.2 (by decide) (by decide), (spec_c2 _).2.1⟩

/-- C3: on a raw text consisting of exactly one brace-delimited JSON
object embedded in brace-free prose, with no fenced code block, the
Result Extractor recovers exactly that embedded object. -/
theorem spec_c3 (pre mid post : List Char) (v : Json)
    (hpre : ∀ x ∈ pre, ¬ x = '\x7b' ∧ ¬ x = '\x7d')
    (hpost : ∀ x ∈ post, ¬ x = '\x7b' ∧ ¬ x = '\x7d')
    (hnf : containsSeg (pre ++ ('\x7b' :: mid ++ ['\x7d']) ++ post) fenceOpenLit = false)
    (hv : jsonParse ('\x7b' :: mid ++ ['\x7d']) = some v) :
    extractAnalysis (pre ++ ('\x7b' :: mid ++ ['\x7d']) ++ post) = .parsed v :=
  extractAnalysis_embedded pre mid post v hpre hpost hnf hv

/-- C3 witness: the worked example of the claim. The input decomposes as
prose, the object, prose; the recovered result carries overallScore 7.5
(represented exactly as 75 times ten to the minus one) and strengths
equal to the one-element list "Good lighting". -/
theorem spec_c3_witness :
    extractAnalysis ("Here you go:\n".data ++
        ('\x7b' :: "\"overallScore\":7.5,\"strengths\":[\"Good lighting\"]".data ++ ['\x7d']) ++
        "\nHope that helps!".data) =
      .parsed (.obj [("overallScore".data, .num 75 (-1)),
                     ("strengths".data, .arr [.str "Good lighting".data])])
    ∧ ("Here you go:\n".data ++
        ('\x7b' :: "\"overallScore\":7.5,\"strengths\":[\"Good lighting\"]".data ++ ['\x7d']) ++
        "\nHope that helps!".data) =
      "Here you go:\n\x7b\"overallScore\":7.5,\"strengths\":[\"Good lighting\"]\x7d\nHope that helps!".data
    ∧ lookupField (.obj [("overallScore".data, .num 75 (-1)),
                         ("strengths".data, .arr [.str "Good lighting".data])])
        "overallScore".data = some (.num 75 (-1)) :=
  ⟨spec_c3 _ _ _ _ (by decide) (by decide) (by decide) rfl, by decide, rfl⟩

/-- C4: on a raw text that is in its entirety a well-formed JSON object
(the expected result shape, hence brace-initial and brace-final, and never
containing a fenced block), the Result Extractor returns exactly the
parsed structure. -/
theorem spec_c4 (mid : List Char) (v : Json)
    (hnf : containsSeg ('\x7b' :: mid ++ ['\x7d']) fenceOpenLit = false)
    (hv : jsonParse ('\x7b' :: mid ++ ['\x7d']) = some v) :
    extractAnalysis ('\x7b' :: mid ++ ['\x7d']) = .parsed v := by
  have h := extractAnalysis_embedded [] mid [] v
    (fun x hx => absurd hx (List.not_mem_nil x))
    (fun x hx => absurd hx (List.not_mem_nil x))
    (by simpa using hnf) hv
  simpa using h

/-- C4 witness: a reply that is exactly a serialized result object
round-trips through the Result Extractor. -/
theorem spec_c4_witness :
    extractAnalysis ('\x7b' :: "\"overallScore\":8,\"strengths\":[\"Nice smile\"]".data ++ ['\x7d']) =
      .parsed (.obj [("overallScore".data, .num 8 0),
                     ("strengths".data, .arr [.str "Nice smile".data])])
    ∧ ('\x7b' :: "\"overallScore\":8,\"strengths\":[\"Nice smile\"]".data ++ ['\x7d']) =
      "\x7b\"overallScore\":8,\"strengths\":[\"Nice smile\"]\x7d".data :=
  ⟨spec_c4 _ _ (by decide) rfl, by decide⟩

/-- Substituting into an empty category yields exactly the placeholder. -/
theorem withFallback_nil (ph : List Char) : withFallback [] ph = [ph] := rfl

/-- The substituted category list is never empty. -/
theorem withFallback_ne_nil (l : List (List Char)) (ph : List Char) :
    withFallback l ph ≠ [] := by
  unfold withFallback
  split
  · intro hnil
    rename_i hpos
    rw [hnil] at hpos
    simp at hpos
  · simp

/-- C5: for every raw reply, a category for which heuristic recovery found
zero items is returned as exactly the one hard-coded placeholder for that
category, and no returned category is ever empty. -/
theorem spec_c5 : ∀ resp : List Char,
    ((heuristicItems resp).1 = [] → (conversationStarters resp).1 = [phMessage])
    ∧ ((heuristicItems resp).2.1 = [] → (conversationStarters resp).2.1 = [phFollowUp])
    ∧ ((heuristicItems resp).2.2 = [] → (conversationStarters resp).2.2 = [phTip])
    ∧ (conversationStarters resp).1 ≠ []
    ∧ (conversationStarters resp).2.1 ≠ []
    ∧ (conversationStarters resp).2.2 ≠ [] := by
  intro resp
  refine ⟨fun h => ?_, fun h => ?_, fun h => ?_,
    withFallback_ne_nil _ _, withFallback_ne_nil _ _, withFallback_ne_nil _ _⟩
  · show withFallback (heuristicItems resp).1 phMessage = [phMessage]
    rw [h]
    exact withFallback_nil _
  · show withFallback (heuristicItems resp).2.1 phFollowUp = [phFollowUp]
    rw [h]
    exact withFallback_nil _
  · show withFallback (heuristicItems resp).2.2 phTip = [phTip]
    rw [h]
    exact withFallback_nil _

/-- C5 witness: on the empty reply the heuristics recover nothing and all
three categories come back as their single placeholders. -/
theorem spec_c5_witness :
    heuristicItems [] = ([], [], [])
    ∧ (conversationStarters []).1 = [phMessage]
    ∧ (conversationStarters []).2.1 = [phFollowUp]
    ∧ (conversationStarters []).2.2 = [phTip] :=
  ⟨by decide, (spec_c5 []).1 (by decide), (spec_c5 []).2.1 (by decide),
   (spec_c5 []).2.2.1 (by decide)⟩

/-- C6 counterexample: a request carrying bio text but an empty photos
array is rejected with the 400 validation error before any model call
(zero calls made), contradicting the claim that a request with bio text
and zero images is not rejected. -/
theorem spec_c6_cex :
    aiAnalyzeProfile (fun _ => true) (.ok []) (.ok [])
      ⟨some "Bearer tok".data, some [], some "I love hiking and espresso".data, none, none⟩ =
      (.badRequest noPhotosMsg, 0) := rfl

/-- C6 (amended): for an authenticated request, the analyze-profile route
rejects with the validation error, before any model call, exactly when
the photos array is missing or empty — the photos field is individually
required, and a nonempty photos array is necessary and sufficient for
the pipeline to proceed to the model call. -/
theorem spec_c6 (tv : List Char → Bool) (mr persist : Except Unit (List Char))
    (req : AiReq) (t : List Char)
    (hT : extractBearer? req.authHeader = some t) (hV : tv t = true) :
    ((req.photos? = none ∨ req.photos? = some []) →
      aiAnalyzeProfile tv mr persist req = (.badRequest noPhotosMsg, 0))
    ∧ (∀ ps, req.photos? = some ps → ps ≠ [] →
        (aiAnalyzeProfile tv mr persist req).2 = 1) := by
  constructor
  · rintro (h | h) <;> simp [aiAnalyzeProfile, hT, hV, h]
  · intro ps hps hne
    have hie : ps.isEmpty = false := by
      cases ps with
      | nil => exact absurd rfl hne
      | cons a l => rfl
    cases mr with
    | error e => simp [aiAnalyzeProfile, hT, hV, hps, hie]
    | ok raw => cases persist <;> simp [aiAnalyzeProfile, hT, hV, hps, hie]

/-- C6 witness: a bio-only request is rejected with zero calls; the same
request plus one photo proceeds to exactly one model call. -/
theorem spec_c6_witness :
    aiAnalyzeProfile (fun _ => true) (.ok []) (.ok [])
      ⟨some "Bearer tok".data, none, some "I love hiking".data, none, none⟩ =
      (.badRequest noPhotosMsg, 0)
    ∧ (aiAnalyzeProfile (fun _ => true) (.ok []) (.ok [])
        ⟨some "Bearer tok".data, some ["http://example.com/a.jpg".data],
         some "I love hiking".data, none, none⟩).2 = 1 :=
  ⟨(spec_c6 (fun _ => true) (.ok []) (.ok [])
      ⟨some "Bearer tok".data, none, some "I love hiking".data, none, none⟩
      "tok".data rfl rfl).1 (Or.inl rfl),
   (spec_c6 (fun _ => true) (.ok []) (.ok [])
      ⟨some "Bearer tok".data, some ["http://example.com/a.jpg".data],
       some "I love hiking".data, none, none⟩
      "tok".data rfl rfl).2 ["http://example.com/a.jpg".data] rfl (by decide)⟩

/-- C7 counterexample: the part_003 /api/analyze-profile route has no
authentication middleware; a request with no authorization header at all
still drives the pipeline, spending two external model calls (one per
photo plus the aggregate call), contradicting the claim that a token is
validated before any model call on every pipeline invocation. -/
theorem spec_c7_cex :
    serverAnalyzeProfile true (fun _ => .error ()) (.error ())
      ⟨none, [], ["http://example.com/a.jpg".data]⟩ =
      (.ok [photoErrorFallback] defaultOverallVerdict defaultOverallSuggestion, 2) := rfl

/-- C7 (amended): the ai.cjs analyze-profile route does validate the
bearer token first — an invocation whose token is missing or invalid is
answered 401 with zero external model calls; but the part_003
/api/analyze-profile route performs no such check (see the
counterexample). -/
theorem spec_c7 (tv : List Char → Bool) (mr persist : Except Unit (List Char))
    (req : AiReq)
    (h : ∀ t, extractBearer? req.authHeader = some t → tv t = false) :
    (aiAnalyzeProfile tv mr persist req).2 = 0
    ∧ ∃ m, (aiAnalyzeProfile tv mr persist req).1 = .unauthorized m := by
  cases hb : extractBearer? req.authHeader with
  | none =>
    exact ⟨by simp [aiAnalyzeProfile, hb],
      ⟨"No token provided".data, by simp [aiAnalyzeProfile, hb]⟩⟩
  | some t =>
    have ht := h t hb
    exact ⟨by simp [aiAnalyzeProfile, hb, ht],
      ⟨"Unauthorized".data, by simp [aiAnalyzeProfile, hb, ht]⟩⟩

/-- C7 witness: with a token the verifier rejects, the ai.cjs route makes
zero model calls and answers 401. -/
theorem spec_c7_witness :
    (aiAnalyzeProfile (fun _ => false) (.ok []) (.ok [])
      ⟨some "Bearer forged".data, some ["http://example.com/a.jpg".data],
       none, none, none⟩).2 = 0
    ∧ ∃ m, (aiAnalyzeProfile (fun _ => false) (.ok []) (.ok [])
      ⟨some "Bearer forged".data, some ["http://example.com/a.jpg".data],
       none, none, none⟩).1 = .unauthorized m :=
  spec_c7 (fun _ => false) (.ok []) (.ok [])
    ⟨some "Bearer forged".data, some ["http://example.com/a.jpg".data], none, none, none⟩
    (fun _ _ => rfl)

/-- C8 counterexample: with a valid token, a photo, and a reply that
parses cleanly, a failing Firestore write makes the route answer the 500
catch-all error — the analysis (shown parsed in the second conjunct) is
not returned to the caller, contradicting the fire-and-forget claim. -/
theorem spec_c8_cex :
    aiAnalyzeProfile (fun _ => true) (.ok "\x7b\"overallScore\":8\x7d".data) (.error ())
      ⟨some "Bearer tok".data, some ["http://example.com/a.jpg".data], none, none, none⟩ =
      (.serverError failedAnalyzeMsg, 1)
    ∧ extractAnalysis "\x7b\"overallScore\":8\x7d".data =
      .parsed (.obj [("overallScore".data, .num 8 0)]) :=
  ⟨rfl, rfl⟩

/-- C8 (amended): the Firestore write is awaited inside the route's try
block — it blocks the response: when the write fails the caller receives
the 500 error and not the analysis; only when the write succeeds is the
analysis returned, together with the new document id. -/
theorem spec_c8 (tv : List Char → Bool) (req : AiReq) (t raw : List Char)
    (ps : List (List Char))
    (hT : extractBearer? req.authHeader = some t) (hV : tv t = true)
    (hP : req.photos? = some ps) (hne : ps ≠ []) :
    (aiAnalyzeProfile tv (.ok raw) (.error ()) req).1 = .serverError failedAnalyzeMsg
    ∧ ∀ d, (aiAnalyzeProfile tv (.ok raw) (.ok d) req).1 =
        .success d (extractAnalysis raw) := by
  have hie : ps.isEmpty = false := by
    cases ps with
    | nil => exact absurd rfl hne
    | cons a l => rfl
  constructor
  · simp [aiAnalyzeProfile, hT, hV, hP, hie]
  · intro d
    simp [aiAnalyzeProfile, hT, hV, hP, hie]

/-- C8 witness: concrete failing and succeeding writes for the same
authenticated single-photo request. -/
theorem spec_c8_witness :
    (aiAnalyzeProfile (fun _ => true) (.ok "\x7b\"overallScore\":8\x7d".data) (.error ())
      ⟨some "Bearer tok".data, some ["http://example.com/a.jpg".data], none, none, none⟩).1 =
      .serverError failedAnalyzeMsg
    ∧ ∀ d, (aiAnalyzeProfile (fun _ => true) (.ok "\x7b\"overallScore\":8\x7d".data) (.ok d)
      ⟨some "Bearer tok".data, some ["http://example.com/a.jpg".data], none, none, none⟩).1 =
      .success d (extractAnalysis "\x7b\"overallScore\":8\x7d".data) :=
  spec_c8 (fun _ => true)
    ⟨some "Bearer tok".data, some ["http://example.com/a.jpg".data], none, none, none⟩
    "tok".data "\x7b\"overallScore\":8\x7d".data ["http://example.com/a.jpg".data]
    rfl rfl rfl (by decide)

/-- Image references of a pure image-part list are the underlying URLs. -/
theorem imageUrlsOf_map (photos : List (List Char)) :
    imageUrlsOf (photos.map ContentPart.imageUrl) = photos := by
  induction photos with
  | nil => rfl
  | cons u us ih => simpa [imageUrlsOf, List.filterMap_cons] using ih

/-- A leading text part contributes no image reference. -/
theorem imageUrlsOf_textCons (p : List Char) (parts : List ContentPart) :
    imageUrlsOf (.text p :: parts) = imageUrlsOf parts := by
  simp [imageUrlsOf, List.filterMap_cons]

/-- C9: for every request with at least one photo, the rendered
instruction string contains the decimal photo count, and the image
references carried by the outgoing message content equal the input photo
list element for element, in the same order. -/
theorem spec_c9 (photos : List (List Char))
    (bio? goals? preferences? : Option (List Char)) (_h : photos ≠ []) :
    containsSeg (buildAnalysisPrompt photos bio? goals? preferences?)
      (natChars photos.length) = true
    ∧ imageUrlsOf (aiMessages photos bio? goals? preferences?) = photos := by
  constructor
  · exact containsSeg_append_middle _ _ _
  · show imageUrlsOf (.text _ :: photos.map .imageUrl) = photos
    rw [imageUrlsOf_textCons]
    exact imageUrlsOf_map photos

/-- C9 witness: a one-photo request with a bio mentions the count 1 and
passes the photo list through unchanged and ordered. -/
theorem spec_c9_witness :
    containsSeg
      (buildAnalysisPrompt ["https://example.com/p1.jpg".data]
        (some "Avid climber".data) none none)
      (natChars 1) = true
    ∧ imageUrlsOf
      (aiMessages ["https://example.com/p1.jpg".data] (some "Avid climber".data) none none) =
      ["https://example.com/p1.jpg".data] :=
  spec_c9 ["https://example.com/p1.jpg".data] (some "Avid climber".data) none none
    (by decide)

/-- The sequential loop starting at call index `k` produces the analyses
of the oracle outcomes `k`, `k + 1`, ... in order, one per URL. -/
theorem analyzePhotosLoop_eq (oracle : Nat → Except Unit (List Char)) :
    ∀ (urls : List (List Char)) (k : Nat),
      analyzePhotosLoop oracle k urls =
        (List.range urls.length).map (fun i => analyzeOnePhoto (oracle (k + i))) := by
  intro urls
  induction urls with
  | nil => intro k; rfl
  | cons u us ih =>
    intro k
    simp only [analyzePhotosLoop, List.length_cons, List.range_succ_eq_map,
      List.map_cons, List.map_map]
    rw [ih (k + 1)]
    refine congrArg₂ List.cons rfl ?_
    apply List.map_congr_left
    intro i _
    show analyzeOnePhoto (oracle (k + 1 + i)) = analyzeOnePhoto (oracle (k + (i + 1)))
    rw [show k + 1 + i = k + (i + 1) from by omega]

/-- C10: the analyses array has exactly one entry per submitted photo URL
in submission order (entry `i` determined by the outcome of call `i`); a
failed model call yields the hard-coded error fallback at that position,
a reply with fewer than four numbered sections yields the hard-coded
parse fallback at that position, and both fallbacks carry the verdict
Needs Improvement. -/
theorem spec_c10 (oracle : Nat → Except Unit (List Char)) (urls : List (List Char)) :
    analyzePhotos oracle urls =
      (List.range urls.length).map (fun i => analyzeOnePhoto (oracle i))
    ∧ (analyzePhotos oracle urls).length = urls.length
    ∧ (∀ i, oracle i = .error () → analyzeOnePhoto (oracle i) = photoErrorFallback)
    ∧ (∀ i resp, oracle i = .ok resp → (splitNumdot resp).length < 4 →
        analyzeOnePhoto (oracle i) = photoParseFallback)
    ∧ photoErrorFallback.verdict = niLit
    ∧ photoParseFallback.verdict = niLit := by
  have hmain : analyzePhotos oracle urls =
      (List.range urls.length).map (fun i => analyzeOnePhoto (oracle i)) := by
    rw [analyzePhotos, analyzePhotosLoop_eq oracle urls 0]
    apply List.map_congr_left
    intro i _
    simp
  refine ⟨hmain, ?_, ?_, ?_, rfl, rfl⟩
  · rw [hmain]
    simp
  · intro i h
    rw [h]
    rfl
  · intro i resp h hlen
    rw [h]
    have hn : ¬ 4 ≤ (splitNumdot resp).length := by omega
    simp [analyzeOnePhoto, hn]

/-- C10 witness: with two photos whose first call parses and whose second
call fails, the analyses array has length two and carries the error
fallback (verdict Needs Improvement) in second position. -/
theorem spec_c10_witness :
    analyzePhotos
      (fun i => if i = 0
        then Except.ok "A 1. desc 2. Good shot 3. crop tighter".data
        else Except.error ())
      ["http://example.com/a.jpg".data, "http://example.com/b.jpg".data] =
      [analyzeOnePhoto (Except.ok "A 1. desc 2. Good shot 3. crop tighter".data),
       photoErrorFallback]
    ∧ photoErrorFallback.verdict = niLit := by
  have h := spec_c10
    (fun i => if i = 0
      then Except.ok "A 1. desc 2. Good shot 3. crop tighter".data
      else Except.error ())
    ["http://example.com/a.jpg".data, "http://example.com/b.jpg".data]
  constructor
  · rw [h.1]
    rw [show (["http://example.com/a.jpg".data, "http://example.com/b.jpg".data] :
        List (List Char)).length = 2 from rfl]
    rw [show List.range 2 = [0, 1] from rfl]
    simp only [List.map_cons, List.map_nil]
    rw [h.2.2.1 1 rfl]
    simp
  · exact h.2.2.2.2.1
